import Mathlib

set_option maxRecDepth 40000

/-!
Verification development for the midnight-playground interactive-subprocess
automation engine.

The definitions below are shallow embeddings of:
* `src/server/workspace-manager.js` — the session drivers
  (`runCLIWithFunctionSelection`, `runCLIWithAutoExit`), `compile`, and
  `executeFunction`;
* `src/server/workspace/bboard-cli/src/contract-analyzer.ts` — the
  `ContractAnalyzer` (structured-descriptor parsing, textual parsing, type
  mapping, readOnly classification);
* `src/unnamed/part_002` (`dynamic-cli-generator.ts`) — menu construction
  (`generateMenuItems`, `generateMenuQuestion`, `formatFunctionLabel`).

Text is modelled as `List Char` (named `Str`).  JavaScript regular
expressions are embedded as direct character scanners equivalent to the
specific patterns used by the source; the menu-line icon class is embedded
with the source regex's no-`u`-flag UTF-16 semantics, and the generator's
indicator literals are the mojibake scalar sequences the committed source
file actually stores, not the emoji they were once meant to be.  JSON
numeric fields are embedded as the exact integral values of the parsed
JavaScript doubles, restricted to the below-2^53 range on which parsing and
rendering are exact.  Child-process sessions are modelled as folds over a
chronological list of stream events (stdout chunk, stderr chunk, process
close), with the driver timeout firing when no close event occurs before
the bound.
-/

namespace MidnightPlayground

/-- Text is a list of characters (JavaScript strings). -/
abbrev Str := List Char

/-- Whitespace characters, as matched by the regex class back-slash-s on the
inputs that occur here. -/
def isWS (c : Char) : Bool := c = ' ' || c = '\n' || c = '\t' || c = '\r'

/-- ASCII digit. -/
def isDigitC (c : Char) : Bool := '0' ≤ c && c ≤ '9'

/-- Word character, as matched by the regex class back-slash-w. -/
def isWordC (c : Char) : Bool :=
  ('a' ≤ c && c ≤ 'z') || ('A' ≤ c && c ≤ 'Z') || isDigitC c || c = '_'

/-- JavaScript `toLowerCase` restricted to the ASCII names appearing here. -/
def toLowerStr (s : Str) : Str := s.map Char.toLower

/-- JavaScript `String.prototype.includes`: does `pat` occur as a contiguous
substring of `hay`? -/
def containsSub : Str → Str → Bool
  | [], pat => pat.isEmpty
  | c :: rest, pat => List.isPrefixOf pat (c :: rest) || containsSub rest pat

/-- JavaScript `split(sep)` for a single-character separator. -/
def splitOnChar (sep : Char) : Str → List Str
  | [] => [[]]
  | c :: rest =>
    match splitOnChar sep rest, decide (c = sep) with
    | r, true => [] :: r
    | [], false => [[c]]
    | h :: t, false => (c :: h) :: t

/-- JavaScript `trim`. -/
def trimStr (s : Str) : Str :=
  ((s.dropWhile isWS).reverse.dropWhile isWS).reverse

/-- Decimal rendering of a natural number (JavaScript `toString` /
template-literal interpolation of a non-negative number). -/
def natStr (n : Nat) : Str := (Nat.repr n).data

/-- Concatenation of a list of strings. -/
def catAll : List Str → Str
  | [] => []
  | x :: r => x ++ catAll r

/-- `joinSep sep l` is JavaScript `l.join(sep)`. -/
def joinSep (sep : Str) : List Str → Str
  | [] => []
  | [x] => x
  | x :: y :: r => x ++ sep ++ joinSep sep (y :: r)

/-- A JSON-parsed non-negative numeric field, as the source's JavaScript
double holds it.  The embedding covers the integral range below 2^53, on
which both `JSON.parse` and template-literal rendering are exact, so the
carried natural number is exactly the double's value and `natStr` is
exactly its rendering.  Larger written bounds are rounded to the nearest
double on parse (the Uint<64> maximum 18446744073709551615 becomes 2^64 and
prints as 18446744073709552000) and bounds at or above 10^21 print in
exponential notation; such values are outside this embedding's domain. -/
abbrev JsonNat := {n : Nat // n < 2 ^ 53}

/-- A structured-descriptor type object from `contract-info.json`: a
`type-name` discriminator plus the optional `maxval` (Uint bound), optional
`length` (Bytes length) and nested `types` (Tuple components).  A JavaScript
number field holding `0` is falsy, so an `Option JsonNat` holding zero
models a present-but-falsy bound; an absent or present-but-empty `types`
array behaves identically in the source, so `types` is a plain list. -/
inductive CIType where
  | mk (typeName : Str) (maxval : Option JsonNat) (len : Option JsonNat) (types : List CIType)

/-- The `type-name` field. -/
def CIType.typeName : CIType → Str
  | .mk tn _ _ _ => tn

/-- The `maxval` field. -/
def CIType.maxval : CIType → Option JsonNat
  | .mk _ mv _ _ => mv

/-- The `types` field. -/
def CIType.types : CIType → List CIType
  | .mk _ _ _ tys => tys

/-- JavaScript `x || 'unknown'` applied to an optional numeric field: `0`
is falsy and degrades to the string `unknown`; within the `JsonNat` domain
a nonzero value prints as its exact decimal digits. -/
def orUnknownNat : Option JsonNat → Str
  | some n => if n.val = 0 then ("unknown").data else natStr n.val
  | none => ("unknown").data

/-- `ContractAnalyzer.mapContractInfoTypeToUserFriendly`, inner recursion on
a present type object. -/
def mapCITypeCore : CIType → Str
  | .mk tn mv ln tys =>
    if tn = ("Uint").data then
      ("Uint<").data ++ orUnknownNat mv ++ ['>']
    else if tn = ("Bytes").data then
      ("Bytes<").data ++ orUnknownNat ln ++ ['>']
    else if tn = ("Tuple").data then
      if tys.isEmpty then ("[]").data
      else ("Tuple<").data ++
        joinSep ((", ").data) (tys.attach.map (fun x => mapCITypeCore x.1)) ++ ['>']
    else if tn.isEmpty then ("unknown").data else tn
decreasing_by
  have h := List.sizeOf_lt_of_mem x.2
  simp only [CIType.mk.sizeOf_spec]
  omega

/-- `ContractAnalyzer.mapContractInfoTypeToUserFriendly`: a falsy (absent)
type object renders as `void`. -/
def mapCIType : Option CIType → Str
  | none => ("void").data
  | some t => mapCITypeCore t

/-- One entry of a circuit's `arguments` array in `contract-info.json`. -/
structure CIArg where
  name : Str
  type : Option CIType

/-- One entry of the `circuits` array in `contract-info.json`.  `pure`
models the optional boolean `pure` field; `resultType` the optional
`result-type` object; `arguments` is `none` when the field is absent or not
an array. -/
structure CICircuit where
  name : Str
  arguments : Option (List CIArg)
  resultType : Option CIType
  pure : Option Bool

/-- The `contract-info.json` document: the optional `circuits` array. -/
structure ContractInfoDoc where
  circuits : Option (List CICircuit)

/-- The analyzer's `ContractFunction` record (parameters are name/type
string pairs, as produced by the type mapping). -/
structure ContractFunction where
  name : Str
  parameters : List (Str × Str)
  returnType : Str
  readOnly : Bool
  description : Str
deriving DecidableEq, Repr

/-- `hasNonEmptyReturn` from `ContractAnalyzer.parseFromContractInfo`:
a truthy `result-type` that is not an empty tuple. -/
def ciHasNonEmptyReturn (c : CICircuit) : Bool :=
  match c.resultType with
  | none => false
  | some t => !(t.typeName == ("Tuple").data && t.types.isEmpty)

/-- The readOnly classification in `parseFromContractInfo`:
`circuit.pure === true || hasNonEmptyReturn`. -/
def ciReadOnly (c : CICircuit) : Bool :=
  (c.pure == some true) || ciHasNonEmptyReturn c

/-- `ContractAnalyzer.parseFromContractInfo`. -/
def parseFromContractInfo (doc : ContractInfoDoc) : List ContractFunction :=
  match doc.circuits with
  | none => []
  | some circuits =>
    circuits.map (fun c =>
      { name := c.name
        parameters :=
          match c.arguments with
          | none => []
          | some l => l.map (fun a => (a.name, mapCIType a.type))
        returnType := mapCIType c.resultType
        readOnly := ciReadOnly c
        description := ("Execute ").data ++ c.name ++ (" function").data })

/-- `mapCompactTypeToUserFriendly`: the table-driven mapping from raw Compact
type text to display text; unknown types are echoed unchanged. -/
def mapCompactType (t : Str) : Str :=
  if t = ("Opaque<\"string\">").data then ("string").data
  else if t = ("Maybe<Opaque<\"string\">>").data then ("string?").data
  else if t = ("Counter").data then ("number").data
  else if t = ("Bytes<32>").data then ("bytes").data
  else if t = ("State").data then ("enum").data
  else if t = ("[]").data then ("void").data
  else t

/-- `List.isPrefixOf` driven literal matcher: consume `lit` from the front of
`s`, or fail. -/
def dropLit (lit s : Str) : Option Str :=
  if List.isPrefixOf lit s then some (s.drop lit.length) else none

/-- The capture group `([^X]+)` when it is preceded by a greedy back-slash-s-star
and followed by the literal `X`: the group keeps the matched run except for the
leading whitespace the star can absorb, but must keep at least one character. -/
def greedyGroup (t : Str) : Str :=
  t.drop (min (t.takeWhile isWS).length (t.length - 1))

/-- Anchored match of the circuit-declaration regex
`export\s+circuit\s+(\w+)\s*\(([^)]*)\)\s*:\s*([^\x7b]+)\s*\x7b` at the head of
`s`; on success returns the three capture groups (name, parameter text,
return-type text) and the remainder of the input after the match. -/
def matchCircuitAt (s : Str) : Option (Str × Str × Str × Str) :=
  match dropLit (("export").data) s with
  | none => none
  | some s1 =>
    if (s1.takeWhile isWS).isEmpty then none else
    match dropLit (("circuit").data) (s1.dropWhile isWS) with
    | none => none
    | some s2 =>
      if (s2.takeWhile isWS).isEmpty then none else
      let s3 := s2.dropWhile isWS
      let nm := s3.takeWhile isWordC
      if nm.isEmpty then none else
      match (s3.dropWhile isWordC).dropWhile isWS with
      | '(' :: s5 =>
        let ps := s5.takeWhile (fun c => !(c = ')'))
        match s5.dropWhile (fun c => !(c = ')')) with
        | ')' :: s6 =>
          match s6.dropWhile isWS with
          | ':' :: s7 =>
            let t := s7.takeWhile (fun c => !(c = '{'))
            if t.isEmpty then none else
            match s7.dropWhile (fun c => !(c = '{')) with
            | '{' :: s8 => some (nm, ps, greedyGroup t, s8)
            | _ => none
          | _ => none
        | _ => none
      | _ => none

/-- The global-regex scan loop over the circuit pattern: try an anchored match
at every position from left to right, continuing after each match (JavaScript
`exec` with the `g` flag).  `fuel` bounds the recursion; `input.length` is
always enough since every step consumes at least one character. -/
def scanCircuits : Nat → Str → List (Str × Str × Str)
  | 0, _ => []
  | _ + 1, [] => []
  | fuel + 1, c :: cs =>
    match matchCircuitAt (c :: cs) with
    | some (nm, ps, t, rest) => (nm, ps, t) :: scanCircuits fuel rest
    | none => scanCircuits fuel cs

/-- Parameter-list handling inside `ContractAnalyzer.parseFunctions`: split on
commas, trim, drop empties, and keep entries whose first colon is at a
positive index, mapping the type text through the friendly-type table. -/
def parseParams (ps : Str) : List (Str × Str) :=
  if (trimStr ps).isEmpty then []
  else
    (((splitOnChar ',' ps).map trimStr).filter (fun p => !p.isEmpty)).filterMap
      (fun p =>
        match List.indexOf? ':' p with
        | some idx =>
          if 0 < idx then
            some (trimStr (p.take idx), mapCompactType (trimStr (p.drop (idx + 1))))
          else none
        | none => none)

/-- `ContractAnalyzer.parseFunctions`: textual parsing of circuit
declarations from raw Compact source. -/
def parseFunctions (content : Str) : List ContractFunction :=
  (scanCircuits content.length content).map (fun m =>
    { name := m.1
      parameters := parseParams m.2.1
      returnType := trimStr m.2.2
      readOnly := !(trimStr m.2.2 == ("[]").data) && !(trimStr m.2.2).isEmpty
      description := ("Execute ").data ++ m.1 ++ (" function").data })

/-- Anchored match of the ledger-declaration regex
`export\s+ledger\s+(\w+):\s*([^;]+);` at the head of `s` (note: no whitespace
is allowed between the name and the colon). -/
def matchLedgerAt (s : Str) : Option (Str × Str × Str) :=
  match dropLit (("export").data) s with
  | none => none
  | some s1 =>
    if (s1.takeWhile isWS).isEmpty then none else
    match dropLit (("ledger").data) (s1.dropWhile isWS) with
    | none => none
    | some s2 =>
      if (s2.takeWhile isWS).isEmpty then none else
      let s3 := s2.dropWhile isWS
      let nm := s3.takeWhile isWordC
      if nm.isEmpty then none else
      match s3.dropWhile isWordC with
      | ':' :: s4 =>
        let t := s4.takeWhile (fun c => !(c = ';'))
        if t.isEmpty then none else
        match s4.dropWhile (fun c => !(c = ';')) with
        | ';' :: s5 => some (nm, greedyGroup t, s5)
        | _ => none
      | _ => none

/-- Global-regex scan loop over the ledger pattern. -/
def scanLedgers : Nat → Str → List (Str × Str)
  | 0, _ => []
  | _ + 1, [] => []
  | fuel + 1, c :: cs =>
    match matchLedgerAt (c :: cs) with
    | some (nm, t, rest) => (nm, t) :: scanLedgers fuel rest
    | none => scanLedgers fuel cs

/-- `ContractAnalyzer.parseLedgerState`, as the association list of
declarations in scan order (the source stores them into an object keyed by
name; no claim depends on duplicate-key overriding). -/
def parseLedgerState (content : Str) : List (Str × Str) :=
  (scanLedgers content.length content).map (fun m => (m.1, mapCompactType (trimStr m.2)))

/-- The analyzer's result record. -/
structure ContractAnalysis where
  contractName : Str
  functions : List ContractFunction
  ledgerState : List (Str × Str)
deriving DecidableEq, Repr

/-- The file-system state `ContractAnalyzer.analyzeContract` reads: whether
`contract-info.json` exists, the result of reading-and-processing it
(`none` models a thrown parse error), whether the `.compact` source exists,
and its content. -/
structure AnalyzerFS where
  contractInfoExists : Bool
  contractInfoParsed : Option ContractInfoDoc
  contractExists : Bool
  contractContent : Str

/-- The fallback branch of `analyzeContract`: throws when the `.compact`
file is missing, otherwise parses it textually (the contract name is the
capitalized basename of the fixed `bboard.compact` path). -/
def analyzeFallback (fsys : AnalyzerFS) : Except Str ContractAnalysis :=
  if !fsys.contractExists then
    .error (("Contract file not found").data)
  else
    .ok { contractName := ("Bboard Contract").data
          functions := parseFunctions fsys.contractContent
          ledgerState := parseLedgerState fsys.contractContent }

/-- `ContractAnalyzer.analyzeContract`: prefer the structured descriptor;
a descriptor read/parse failure falls back to textual parsing; `.error`
models a thrown JavaScript exception. -/
def analyzeContract (fsys : AnalyzerFS) : Except Str ContractAnalysis :=
  if fsys.contractInfoExists then
    match fsys.contractInfoParsed with
    | some doc =>
      .ok { contractName := ("Dynamic Contract").data
            functions := parseFromContractInfo doc
            ledgerState :=
              if fsys.contractExists then parseLedgerState fsys.contractContent else [] }
    | none => analyzeFallback fsys
  else analyzeFallback fsys

/-- A CLI menu item from `DynamicCLIGenerator.generateMenuItems`.  The
handler closure is not modelled; `readOnly` is `none` when the source leaves
the field undefined (the exit item). -/
structure MenuItem where
  key : Str
  label : Str
  readOnly : Option Bool
deriving DecidableEq, Repr

/-- `DynamicCLIGenerator.formatFunctionLabel`: snake_case to title case plus
a parameter-count suffix. -/
def formatFunctionLabel (f : ContractFunction) : Str :=
  let formatted :=
    joinSep [' '] ((splitOnChar '_' f.name).map (fun w =>
      match w with
      | [] => []
      | c :: r => c.toUpper :: r))
  let n := f.parameters.length
  formatted ++
    (if n > 0 then
      (" (").data ++ natStr n ++ (" param").data ++
        (if n > 1 then ("s").data else []) ++ [')']
    else [])

/-- `DynamicCLIGenerator.generateMenuItems`: one numbered item per analyzed
operation, in analyzer order, then the three fixed trailing items.  Keys are
assigned from the running item count, which is the enumeration index plus
one. -/
def generateMenuItems (funcs : List ContractFunction) : List MenuItem :=
  funcs.enum.map (fun p =>
    { key := natStr (p.1 + 1)
      label := formatFunctionLabel p.2
      readOnly := some p.2.readOnly })
  ++ [ { key := natStr (funcs.length + 1)
         label := ("Display ledger state").data
         readOnly := some true },
       { key := natStr (funcs.length + 2)
         label := ("Display private state").data
         readOnly := some true },
       { key := natStr (funcs.length + 3)
         label := ("Exit").data
         readOnly := none } ]

/-- The generator source file's literal for the read-only indicator: not
the book emoji but the mojibake scalar sequence U+F8FF U+00FC U+00EC U+00F1
(the emoji's UTF-8 bytes decoded under a legacy encoding), exactly as the
committed file stores it. -/
def bookMoji : Str := ['\uF8FF', '\u00FC', '\u00EC', '\u00F1']

/-- The generator source file's literal for the effectful indicator: the
mojibake scalar sequence U+201A U+00F6 U+00B0, not the lightning emoji. -/
def lightningMoji : Str := ['\u201A', '\u00F6', '\u00B0']

/-- `DynamicCLIGenerator.generateMenuQuestion`: renders the menu lines (a
truthy `readOnly` selects the book indicator, otherwise the lightning
indicator — both stored as mojibake sequences in the source file) and ends
with the literal menu-prompt question. -/
def generateMenuQuestion (items : List MenuItem) : Str :=
  '\n' :: ("You can do one of the following:").data ++ ['\n'] ++
  catAll (items.map (fun it =>
    ("  ").data ++ it.key ++ (". ").data ++
    (if it.readOnly == some true then bookMoji else lightningMoji) ++
    [' '] ++ it.label ++ ['\n'])) ++
  ("Which would you like to do? ").data

/-- The menu-prompt marker scanned for by both session drivers. -/
def menuMarker : Str := ("Which would you like to do?").data

/-- The fatal-exception marker checked by `compile`. -/
def exceptionMarker : Str := ("Exception:").data

/-- The error string appended when a driver's timeout fires. -/
def timeoutMsg : Str := ("CLI process timed out").data

/-- `runCLIWithFunctionSelection`'s timeout bound (3 minutes). -/
def fsTimeoutMs : Nat := 180000

/-- `runCLIWithAutoExit`'s timeout bound (2 minutes). -/
def aeTimeoutMs : Nat := 120000

/-- One observable event of a child-process session: a stdout chunk, a
stderr chunk, or the process close, each carrying its time in milliseconds
since spawn.  A session trace is a chronological list of these. -/
inductive SEvent where
  | out (t : Nat) (text : Str)
  | err (t : Nat) (text : Str)
  | close (t : Nat) (code : Int)
deriving DecidableEq, Repr

/-- The time of an event. -/
def SEvent.time : SEvent → Nat
  | .out t _ => t
  | .err t _ => t
  | .close t _ => t

/-- The resolved value of a session promise, extended with the instrumented
write and firing history: `writes` lists every stdin write the driver
issues or schedules, with the time it fires; `fires` counts how many times
the act-on-menu branch ran. -/
structure SessionResult where
  output : Str
  errors : List Str
  exitCode : Int
  resolveTime : Nat
  writes : List (Nat × Str)
  fires : Nat
deriving DecidableEq, Repr

/-- Mutable state of one `runCLIWithFunctionSelection` session while its
stream handlers run. -/
structure FSState where
  output : Str
  errors : List Str
  menuShown : Bool
  writes : List (Nat × Str)
  fires : Nat
deriving DecidableEq, Repr

/-- `menuLineMatch` embeds the menu-line regex
`^\s*(\d+)\.\s+[⚡📖]\s+(\w+)` used to resolve an operation's menu index:
on success it returns the captured index digits and name word.  The regex
has no `u` flag, so its character class holds three UTF-16 code units: the
lightning scalar U+26A1 and the two surrogate halves of the book emoji.
The class therefore matches a real lightning character, but can never
complete a match on a real book emoji (the class consumes its high
surrogate and `\s+` then fails on the low surrogate), and the surrogate
units are not unicode scalars, so on scalar text the icon position matches
exactly the single character `⚡`.  The generator's own echoed indicators
are mojibake sequences, which this pattern never matches either. -/
def menuLineMatch (line : Str) : Option (Str × Str) :=
  let s1 := line.dropWhile isWS
  let num := s1.takeWhile isDigitC
  if num.isEmpty then none else
  match s1.dropWhile isDigitC with
  | '.' :: s3 =>
    if (s3.takeWhile isWS).isEmpty then none else
    match s3.dropWhile isWS with
    | c :: s5 =>
      if c = '⚡' then
        if (s5.takeWhile isWS).isEmpty then none else
        let w := (s5.dropWhile isWS).takeWhile isWordC
        if w.isEmpty then none else some (num, w)
      else none
    | [] => none
  | _ => none

/-- The index-resolution loop of `runCLIWithFunctionSelection`: split the
captured output into lines and return the index of the first menu line whose
captured name equals the target operation name case-insensitively. -/
def findFunctionNumber (output fname : Str) : Option Str :=
  ((splitOnChar '\n' output).filterMap (fun l =>
    match menuLineMatch l with
    | some (num, w) =>
      if toLowerStr w = toLowerStr fname then some num else none
    | none => none)).head?

/-- The stdin writes of the act-on-menu branch of
`runCLIWithFunctionSelection`: resolve the operation's menu index from the
captured output; on a match write the selection now, each argument at one
second, and the fixed exit selection `6` at three seconds; with no match
write the fixed exit selection `6` immediately. -/
def fsFireWrites (fname : Str) (args : List Str) (output : Str) (t : Nat) :
    List (Nat × Str) :=
  match findFunctionNumber output fname with
  | some num =>
    [(t, num ++ ['\n'])] ++
      (if args.isEmpty then []
       else args.map (fun a => (t + 1000, a ++ ['\n']))) ++
      [(t + 3000, ("6\n").data)]
  | none => [(t, ("6\n").data)]

/-- The stdout `data` handler of `runCLIWithFunctionSelection`: append the
chunk, and when the menu-prompt marker is present and the `menuShown` latch
is still clear, fire the act-on-menu branch, setting the latch and issuing
the branch's stdin writes. -/
def fsHandleOut (fname : Str) (args : List Str) (st : FSState) (t : Nat)
    (text : Str) : FSState :=
  let output := st.output ++ text
  if containsSub text menuMarker && !st.menuShown then
    { output := output, errors := st.errors, menuShown := true
      writes := st.writes ++ fsFireWrites fname args output t
      fires := st.fires + 1 }
  else
    { st with output := output }

/-- The event loop of one `runCLIWithFunctionSelection` session: events are
consumed in order; the first close event before the timeout bound resolves
the promise with the captured state and exit code; if none occurs the
timeout fires at the bound, kills the process, appends the timeout error and
resolves with exit code `-1`. -/
def fsRunAux (fname : Str) (args : List Str) : FSState → List SEvent → SessionResult
  | st, [] =>
    { output := st.output, errors := st.errors ++ [timeoutMsg], exitCode := -1
      resolveTime := fsTimeoutMs, writes := st.writes, fires := st.fires }
  | st, e :: rest =>
    if fsTimeoutMs ≤ e.time then
      { output := st.output, errors := st.errors ++ [timeoutMsg], exitCode := -1
        resolveTime := fsTimeoutMs, writes := st.writes, fires := st.fires }
    else
      match e with
      | .close t code =>
        { output := st.output, errors := st.errors, exitCode := code
          resolveTime := t, writes := st.writes, fires := st.fires }
      | .out t text => fsRunAux fname args (fsHandleOut fname args st t text) rest
      | .err _ text =>
        fsRunAux fname args { st with errors := st.errors ++ [text] } rest

/-- `runCLIWithFunctionSelection` on a session trace, from the initial
state. -/
def fsRun (fname : Str) (args : List Str) (events : List SEvent) : SessionResult :=
  fsRunAux fname args { output := [], errors := [], menuShown := false, writes := [], fires := 0 } events

/-- Mutable state of one `runCLIWithAutoExit` session: no menu latch
exists in this driver. -/
structure AEState where
  output : Str
  errors : List Str
  writes : List (Nat × Str)
  fires : Nat
deriving DecidableEq, Repr

/-- The stdout `data` handler of `runCLIWithAutoExit`: append the chunk and,
on every chunk containing the menu-prompt marker, write the exit selection
`6`. -/
def aeHandleOut (st : AEState) (t : Nat) (text : Str) : AEState :=
  let output := st.output ++ text
  if containsSub text menuMarker then
    { output := output, errors := st.errors
      writes := st.writes ++ [(t, ("6\n").data)], fires := st.fires + 1 }
  else
    { st with output := output }

/-- The event loop of one `runCLIWithAutoExit` session (2-minute bound). -/
def aeRunAux : AEState → List SEvent → SessionResult
  | st, [] =>
    { output := st.output, errors := st.errors ++ [timeoutMsg], exitCode := -1
      resolveTime := aeTimeoutMs, writes := st.writes, fires := st.fires }
  | st, e :: rest =>
    if aeTimeoutMs ≤ e.time then
      { output := st.output, errors := st.errors ++ [timeoutMsg], exitCode := -1
        resolveTime := aeTimeoutMs, writes := st.writes, fires := st.fires }
    else
      match e with
      | .close t code =>
        { output := st.output, errors := st.errors, exitCode := code
          resolveTime := t, writes := st.writes, fires := st.fires }
      | .out t text => aeRunAux (aeHandleOut st t text) rest
      | .err _ text => aeRunAux { st with errors := st.errors ++ [text] } rest

/-- `runCLIWithAutoExit` on a session trace, from the initial state. -/
def aeRun (events : List SEvent) : SessionResult :=
  aeRunAux { output := [], errors := [], writes := [], fires := 0 } events

/-- The outcome `executeFunction` builds from the resolved session. -/
structure ExecuteOutcome where
  success : Bool
  output : Str
  errors : List Str
  functionName : Str
deriving DecidableEq, Repr

/-- `WorkspaceManager.executeFunction`: wraps the function-selection session;
success means exit code zero. -/
def executeFunction (fname : Str) (args : List Str) (events : List SEvent) :
    ExecuteOutcome :=
  let r := fsRun fname args events
  { success := r.exitCode == 0
    output := ("Function ").data ++ fname ++ (" executed:\n").data ++ r.output
    errors := r.errors
    functionName := fname }

/-- The resolved value of the `execAsync` promise driving `compile`:
`failed` is true when the promise rejected (non-zero exit or exec timeout),
in which case `message` is the error's message text. -/
structure ExecOutcome where
  stdout : Str
  stderr : Str
  failed : Bool
  message : Str
deriving DecidableEq, Repr

/-- The outcome `compile` returns to its HTTP caller. -/
structure CompileResult where
  success : Bool
  output : Str
  errors : List Str
  contractInfoFns : Option (List Str)
deriving DecidableEq, Repr

/-- The name-extraction regex scan `export\s+circuit\s+(\w+)` used by
`parseFunctionsFromContract`, anchored at the head of `s`. -/
def matchCircuitNameAt (s : Str) : Option (Str × Str) :=
  match dropLit (("export").data) s with
  | none => none
  | some s1 =>
    if (s1.takeWhile isWS).isEmpty then none else
    match dropLit (("circuit").data) (s1.dropWhile isWS) with
    | none => none
    | some s2 =>
      if (s2.takeWhile isWS).isEmpty then none else
      let s3 := s2.dropWhile isWS
      let nm := s3.takeWhile isWordC
      if nm.isEmpty then none else some (nm, s3.dropWhile isWordC)

/-- Global-regex scan loop over the circuit-name pattern. -/
def scanCircuitNames : Nat → Str → List Str
  | 0, _ => []
  | _ + 1, [] => []
  | fuel + 1, c :: cs =>
    match matchCircuitNameAt (c :: cs) with
    | some (nm, rest) => nm :: scanCircuitNames fuel rest
    | none => scanCircuitNames fuel cs

/-- `WorkspaceManager.parseFunctionsFromContract`, reduced to the function
names `compile` reports (a missing contract file yields the empty list). -/
def parseFunctionsFromContract (contract : Option Str) : List Str :=
  match contract with
  | none => []
  | some content => scanCircuitNames content.length content

/-- `WorkspaceManager.compile` after the contract was written: on success the
stderr text (if any) is the sole error; on failure the error list collects
the stderr text, then the stdout text when it contains the fatal-exception
marker, and falls back to the error message when both are absent. -/
def compile (contract : Option Str) (r : ExecOutcome) : CompileResult :=
  if !r.failed then
    { success := true
      output := r.stdout
      errors := if !r.stderr.isEmpty then [r.stderr] else []
      contractInfoFns := some (parseFunctionsFromContract contract) }
  else
    let msgs :=
      (if !r.stderr.isEmpty then [r.stderr] else []) ++
      (if containsSub r.stdout exceptionMarker then [r.stdout] else [])
    { success := false
      output := r.stdout
      errors := if msgs.isEmpty then [r.message] else msgs
      contractInfoFns := none }

/-! ## Concrete scenario data -/

/-- A descriptor type object for an unsigned result carrying a value: the
bound is left absent, since the Uint<64> maximum of the real counter
descriptor lies outside the exact JSON-number domain and no claim depends
on the result type's rendered bound. -/
def uintValueT : CIType := .mk (("Uint").data) none none []

/-- The descriptor type object for a bound-16 unsigned parameter
(maximum value 65535, inside the exact JSON-number domain). -/
def uint16T : CIType := .mk (("Uint").data) (some ⟨65535, by norm_num⟩) none []

/-- The descriptor type object for the empty tuple result. -/
def emptyTupleT : CIType := .mk (("Tuple").data) none none []

/-- Descriptor entry for `get_count`: no parameters, returns a value. -/
def getCountCirc : CICircuit :=
  { name := ("get_count").data
    arguments := some []
    resultType := some uintValueT
    pure := none }

/-- Descriptor entry for `increment`: one bound-16 unsigned parameter,
empty-tuple result. -/
def incrementCirc : CICircuit :=
  { name := ("increment").data
    arguments := some [{ name := ("value").data, type := some uint16T }]
    resultType := some emptyTupleT
    pure := none }

/-- The analyzed operations of the two-operation descriptor. -/
def counterFns : List ContractFunction :=
  parseFromContractInfo { circuits := some [getCountCirc, incrementCirc] }

/-- The menu the CLI generator builds for the two-operation descriptor
(five items: the two operations, two state displays, exit). -/
def counterMenu : List MenuItem := generateMenuItems counterFns

/-- The menu text the driven CLI echoes for that menu, ending in the
menu-prompt marker; its icon column holds the generator's mojibake
indicator sequences, which the driver's icon pattern never matches. -/
def counterMenuText : Str := generateMenuQuestion counterMenu

/-- A hand-written five-item menu echo whose icon column carries the real
single-scalar lightning character — the one form the driver's no-`u`-flag
icon class can match.  The generator itself never produces such lines (its
committed literals are mojibake), so this chunk exercises the driver's
match branch on input the analyzer pipeline cannot reach. -/
def asciiCounterMenuText : Str :=
  ("\nYou can do one of the following:\n  1. \u26A1 Get Count\n  2. \u26A1 Increment (1 param)\n  3. \u26A1 Display ledger state\n  4. \u26A1 Display private state\n  5. \u26A1 Exit\nWhich would you like to do? ").data

/-- Textual source of the voting scenario: `vote_yes` returns the empty
tuple, `get_results` returns a pair of 64-bit unsigned values. -/
def votingSrc : Str :=
  ("export circuit vote_yes(): [] \x7b\n  votes_for.increment(1);\n\x7d\n\nexport circuit vote_no(): [] \x7b\n  votes_against.increment(1);\n\x7d\n\nexport circuit get_results(): [Uint<64>, Uint<64>] \x7b\n  return [votes_for, votes_against];\n\x7d").data

/-- The functions the textual parser extracts from the voting source. -/
def votingFns : List ContractFunction := parseFunctions votingSrc

/-- Projection exposing the thrown error of an analyzer run, when any. -/
def errTextOf : Except Str ContractAnalysis → Option Str
  | .error e => some e
  | .ok _ => none

/-- Trace in which the child echoes the menu-prompt marker twice and then
exits. -/
def c1Events : List SEvent :=
  [ .out 0 (("Which would you like to do? ").data)
  , .out 10 (("Which would you like to do? ").data)
  , .close 20 0 ]

/-- Trace in which the menu-prompt marker never appears and the child
closes normally well before the timeout bound. -/
def c2Events : List SEvent :=
  [.out 0 (("hello").data), .close 100 0]

/-- Trace echoing the five-item menu, then closing; used with an operation
name absent from the menu. -/
def c3Events : List SEvent :=
  [.out 0 counterMenuText, .close 5000 0]

/-- Stdout chunk carrying the fatal-exception marker together with a
recognized file extension. -/
def exceptionChunk : Str :=
  ("Exception: bboard.compact line 3 char 5: assert failed").data

/-- Trace echoing the matchable five-item menu, then a fatal-exception
chunk half a second later, then closing after the scheduled writes fired. -/
def c4Events : List SEvent :=
  [.out 0 asciiCounterMenuText, .out 500 exceptionChunk, .close 4000 0]

/-- Trace echoing the generated (mojibake) five-item menu and closing
five seconds later. -/
def c6Events : List SEvent :=
  [.out 0 counterMenuText, .close 5000 0]

/-- Trace echoing the hand-written matchable five-item menu and closing
after the scheduled writes fired. -/
def c6MatchableEvents : List SEvent :=
  [.out 0 asciiCounterMenuText, .close 5000 0]

/-- Analyzer file-system state in which the structured descriptor exists
but fails to parse and the textual source file is missing. -/
def c8BadFS : AnalyzerFS :=
  { contractInfoExists := true
    contractInfoParsed := none
    contractExists := false
    contractContent := [] }

/-- Trace in which the menu-prompt marker appears only on the standard-error
stream. -/
def c9Events : List SEvent :=
  [.err 5 (("Which would you like to do? ").data), .close 50 0]

/-! ## Trace projections used to state driver properties -/

/-- The stdout chunks a driver with timeout bound `T` processes from a
trace: the prefix before the first close event or the first event at or
after the bound. -/
def processedOuts (T : Nat) : List SEvent → List Str
  | [] => []
  | e :: rest =>
    if T ≤ e.time then []
    else
      match e with
      | .close _ _ => []
      | .out _ x => x :: processedOuts T rest
      | .err _ _ => processedOuts T rest

/-- The stderr chunks a driver with timeout bound `T` processes from a
trace. -/
def processedErrs (T : Nat) : List SEvent → List Str
  | [] => []
  | e :: rest =>
    if T ≤ e.time then []
    else
      match e with
      | .close _ _ => []
      | .out _ _ => processedErrs T rest
      | .err _ x => x :: processedErrs T rest

/-- The close event that resolves a session with timeout bound `T`, when
one occurs before the bound. -/
def resolveClose (T : Nat) : List SEvent → Option (Nat × Int)
  | [] => none
  | e :: rest =>
    if T ≤ e.time then none
    else
      match e with
      | .close t c => some (t, c)
      | .out _ _ => resolveClose T rest
      | .err _ _ => resolveClose T rest

/-- How often a latched marker scanner fires over a list of stdout chunks,
starting from latch state `shown`. -/
def latchCount : Bool → List Str → Nat
  | _, [] => 0
  | shown, x :: rest =>
    if containsSub x menuMarker && !shown then latchCount true rest + 1
    else latchCount shown rest

/-- The successive accumulated-output values seen by the marker scanner:
`base ++ c1`, `base ++ c1 ++ c2`, ... for chunks `c1, c2, ...`. -/
def accOutputs (base : Str) : List Str → List Str
  | [] => []
  | c :: rest => (base ++ c) :: accOutputs (base ++ c) rest

/-! ## Handler lemmas -/

lemma fsHandleOut_output (fname : Str) (args : List Str) (st : FSState)
    (t : Nat) (text : Str) :
    (fsHandleOut fname args st t text).output = st.output ++ text := by
  unfold fsHandleOut
  split <;> rfl

lemma fsHandleOut_errors (fname : Str) (args : List Str) (st : FSState)
    (t : Nat) (text : Str) :
    (fsHandleOut fname args st t text).errors = st.errors := by
  unfold fsHandleOut
  split <;> rfl

lemma fsHandleOut_menuShown (fname : Str) (args : List Str) (st : FSState)
    (t : Nat) (text : Str) :
    (fsHandleOut fname args st t text).menuShown
      = (st.menuShown || containsSub text menuMarker) := by
  unfold fsHandleOut
  split
  · rename_i h
    simp only [Bool.and_eq_true, Bool.not_eq_true'] at h
    simp [h.1, h.2]
  · rename_i h
    simp only [Bool.and_eq_true, Bool.not_eq_true'] at h
    rcases hm : containsSub text menuMarker <;> rcases hs : st.menuShown <;>
      simp_all

lemma fsHandleOut_fires (fname : Str) (args : List Str) (st : FSState)
    (t : Nat) (text : Str) :
    (fsHandleOut fname args st t text).fires
      = st.fires + (if containsSub text menuMarker && !st.menuShown then 1 else 0) := by
  unfold fsHandleOut
  split
  · rename_i h
    simp [h]
  · rename_i h
    simp [h]

lemma fsHandleOut_writes_of_not (fname : Str) (args : List Str) (st : FSState)
    (t : Nat) (text : Str)
    (h : (containsSub text menuMarker && !st.menuShown) = false) :
    (fsHandleOut fname args st t text).writes = st.writes := by
  unfold fsHandleOut
  split
  · rename_i h2
    rw [h] at h2
    exact absurd h2 (by simp)
  · rfl

lemma fsHandleOut_writes_fire_none (fname : Str) (args : List Str) (st : FSState)
    (t : Nat) (text : Str)
    (h1 : containsSub text menuMarker = true)
    (h2 : st.menuShown = false)
    (h3 : findFunctionNumber (st.output ++ text) fname = none) :
    (fsHandleOut fname args st t text).writes = st.writes ++ [(t, ("6\n").data)] := by
  unfold fsHandleOut
  split
  · simp [fsFireWrites, h3]
  · rename_i h
    rw [h1, h2] at h
    simp at h

/-! ## Run-loop characterization lemmas -/

lemma fsRunAux_output (fname : Str) (args : List Str) (events : List SEvent) :
    ∀ st, (fsRunAux fname args st events).output
      = st.output ++ catAll (processedOuts fsTimeoutMs events) := by
  induction events with
  | nil => intro st; simp [fsRunAux, processedOuts, catAll]
  | cons e rest ih =>
    intro st
    cases e with
    | out t text =>
      by_cases h : fsTimeoutMs ≤ t
      · simp [fsRunAux, processedOuts, SEvent.time, h, catAll]
      · simp [fsRunAux, processedOuts, SEvent.time, h, catAll, ih,
          fsHandleOut_output, List.append_assoc]
    | err t text =>
      by_cases h : fsTimeoutMs ≤ t
      · simp [fsRunAux, processedOuts, SEvent.time, h, catAll]
      · simp [fsRunAux, processedOuts, SEvent.time, h, ih]
    | close t code =>
      by_cases h : fsTimeoutMs ≤ t
      · simp [fsRunAux, processedOuts, SEvent.time, h, catAll]
      · simp [fsRunAux, processedOuts, SEvent.time, h, catAll]

lemma fsRunAux_errors (fname : Str) (args : List Str) (events : List SEvent) :
    ∀ st, (fsRunAux fname args st events).errors
      = st.errors ++ processedErrs fsTimeoutMs events ++
          (match resolveClose fsTimeoutMs events with
           | some _ => []
           | none => [timeoutMsg]) := by
  induction events with
  | nil => intro st; simp [fsRunAux, processedErrs, resolveClose]
  | cons e rest ih =>
    intro st
    cases e with
    | out t text =>
      by_cases h : fsTimeoutMs ≤ t
      · simp [fsRunAux, processedErrs, resolveClose, SEvent.time, h]
      · simp [fsRunAux, processedErrs, resolveClose, SEvent.time, h, ih,
          fsHandleOut_errors]
    | err t text =>
      by_cases h : fsTimeoutMs ≤ t
      · simp [fsRunAux, processedErrs, resolveClose, SEvent.time, h]
      · simp [fsRunAux, processedErrs, resolveClose, SEvent.time, h, ih,
          List.append_assoc]
    | close t code =>
      by_cases h : fsTimeoutMs ≤ t
      · simp [fsRunAux, processedErrs, resolveClose, SEvent.time, h]
      · simp [fsRunAux, processedErrs, resolveClose, SEvent.time, h]

lemma fsRunAux_exitCode (fname : Str) (args : List Str) (events : List SEvent) :
    ∀ st, (fsRunAux fname args st events).exitCode
      = (match resolveClose fsTimeoutMs events with
         | some p => p.2
         | none => -1) := by
  induction events with
  | nil => intro st; simp [fsRunAux, resolveClose]
  | cons e rest ih =>
    intro st
    cases e with
    | out t text =>
      by_cases h : fsTimeoutMs ≤ t
      · simp [fsRunAux, resolveClose, SEvent.time, h]
      · simp [fsRunAux, resolveClose, SEvent.time, h, ih]
    | err t text =>
      by_cases h : fsTimeoutMs ≤ t
      · simp [fsRunAux, resolveClose, SEvent.time, h]
      · simp [fsRunAux, resolveClose, SEvent.time, h, ih]
    | close t code =>
      by_cases h : fsTimeoutMs ≤ t
      · simp [fsRunAux, resolveClose, SEvent.time, h]
      · simp [fsRunAux, resolveClose, SEvent.time, h]

lemma fsRunAux_resolveTime (fname : Str) (args : List Str) (events : List SEvent) :
    ∀ st, (fsRunAux fname args st events).resolveTime
      = (match resolveClose fsTimeoutMs events with
         | some p => p.1
         | none => fsTimeoutMs) := by
  induction events with
  | nil => intro st; simp [fsRunAux, resolveClose]
  | cons e rest ih =>
    intro st
    cases e with
    | out t text =>
      by_cases h : fsTimeoutMs ≤ t
      · simp [fsRunAux, resolveClose, SEvent.time, h]
      · simp [fsRunAux, resolveClose, SEvent.time, h, ih]
    | err t text =>
      by_cases h : fsTimeoutMs ≤ t
      · simp [fsRunAux, resolveClose, SEvent.time, h]
      · simp [fsRunAux, resolveClose, SEvent.time, h, ih]
    | close t code =>
      by_cases h : fsTimeoutMs ≤ t
      · simp [fsRunAux, resolveClose, SEvent.time, h]
      · simp [fsRunAux, resolveClose, SEvent.time, h]

lemma resolveClose_lt (T : Nat) (events : List SEvent) :
    ∀ p, resolveClose T events = some p → p.1 < T := by
  induction events with
  | nil => intro p h; simp [resolveClose] at h
  | cons e rest ih =>
    intro p h
    cases e with
    | out t text =>
      by_cases ht : T ≤ t
      · simp [resolveClose, SEvent.time, ht] at h
      · simp [resolveClose, SEvent.time, ht] at h
        exact ih p h
    | err t text =>
      by_cases ht : T ≤ t
      · simp [resolveClose, SEvent.time, ht] at h
      · simp [resolveClose, SEvent.time, ht] at h
        exact ih p h
    | close t code =>
      by_cases ht : T ≤ t
      · simp [resolveClose, SEvent.time, ht] at h
      · simp only [resolveClose, SEvent.time, if_neg ht] at h
        injection h with h2
        subst h2
        exact (by omega : t < T)

lemma fsRunAux_fires (fname : Str) (args : List Str) (events : List SEvent) :
    ∀ st, (fsRunAux fname args st events).fires
      = st.fires + latchCount st.menuShown (processedOuts fsTimeoutMs events) := by
  induction events with
  | nil => intro st; simp [fsRunAux, processedOuts, latchCount]
  | cons e rest ih =>
    intro st
    cases e with
    | out t text =>
      by_cases h : fsTimeoutMs ≤ t
      · simp [fsRunAux, processedOuts, SEvent.time, h, latchCount]
      · have hfi := fsHandleOut_fires fname args st t text
        have hms := fsHandleOut_menuShown fname args st t text
        simp only [fsRunAux, SEvent.time, if_neg h]
        rw [ih, hfi, hms]
        simp only [processedOuts, SEvent.time, if_neg h]
        rcases hm : containsSub text menuMarker <;>
          rcases hs : st.menuShown <;>
            simp [latchCount, hm, hs] <;> omega
    | err t text =>
      by_cases h : fsTimeoutMs ≤ t
      · simp [fsRunAux, processedOuts, SEvent.time, h, latchCount]
      · simp [fsRunAux, processedOuts, SEvent.time, h, ih]
    | close t code =>
      by_cases h : fsTimeoutMs ≤ t
      · simp [fsRunAux, processedOuts, SEvent.time, h, latchCount]
      · simp [fsRunAux, processedOuts, SEvent.time, h, latchCount]

lemma latchCount_true (l : List Str) : latchCount true l = 0 := by
  induction l with
  | nil => rfl
  | cons x rest ih => simp [latchCount, ih]

lemma latchCount_false (l : List Str) :
    latchCount false l
      = (if l.any (fun x => containsSub x menuMarker) then 1 else 0) := by
  induction l with
  | nil => rfl
  | cons x rest ih =>
    rcases hm : containsSub x menuMarker
    · simp [latchCount, hm, ih]
    · simp [latchCount, hm, latchCount_true]

lemma fsRunAux_writes_shown (fname : Str) (args : List Str) (events : List SEvent) :
    ∀ st, st.menuShown = true → (fsRunAux fname args st events).writes = st.writes := by
  induction events with
  | nil => intro st _; simp [fsRunAux]
  | cons e rest ih =>
    intro st hs
    cases e with
    | out t text =>
      by_cases h : fsTimeoutMs ≤ t
      · simp [fsRunAux, SEvent.time, h]
      · simp only [fsRunAux, SEvent.time, if_neg h]
        rw [ih _ (by rw [fsHandleOut_menuShown, hs]; simp),
          fsHandleOut_writes_of_not fname args st t text (by rw [hs]; simp)]
    | err t text =>
      by_cases h : fsTimeoutMs ≤ t
      · simp [fsRunAux, SEvent.time, h]
      · simp only [fsRunAux, SEvent.time, if_neg h]
        exact ih _ hs
    | close t code =>
      by_cases h : fsTimeoutMs ≤ t
      · simp [fsRunAux, SEvent.time, h]
      · simp [fsRunAux, SEvent.time, h]

lemma fsRunAux_writes_nomarker (fname : Str) (args : List Str) (events : List SEvent) :
    ∀ st, (∀ x ∈ processedOuts fsTimeoutMs events, containsSub x menuMarker = false) →
      (fsRunAux fname args st events).writes = st.writes := by
  induction events with
  | nil => intro st _; simp [fsRunAux]
  | cons e rest ih =>
    intro st hno
    cases e with
    | out t text =>
      by_cases h : fsTimeoutMs ≤ t
      · simp [fsRunAux, SEvent.time, h]
      · simp only [processedOuts, SEvent.time, if_neg h] at hno
        have hm : containsSub text menuMarker = false := hno text (by simp)
        simp only [fsRunAux, SEvent.time, if_neg h]
        rw [ih _ (fun x hx => hno x (by simp [hx])),
          fsHandleOut_writes_of_not fname args st t text (by rw [hm]; simp)]
    | err t text =>
      by_cases h : fsTimeoutMs ≤ t
      · simp [fsRunAux, SEvent.time, h]
      · simp only [processedOuts, SEvent.time, if_neg h] at hno
        simp only [fsRunAux, SEvent.time, if_neg h]
        exact ih _ hno
    | close t code =>
      by_cases h : fsTimeoutMs ≤ t
      · simp [fsRunAux, SEvent.time, h]
      · simp [fsRunAux, SEvent.time, h]

lemma fsRunAux_writes_notfound (fname : Str) (args : List Str) (events : List SEvent) :
    ∀ st, st.menuShown = false →
      (∀ s ∈ accOutputs st.output (processedOuts fsTimeoutMs events),
        findFunctionNumber s fname = none) →
      (fsRunAux fname args st events).writes.map Prod.snd
        = st.writes.map Prod.snd ++
            (if (processedOuts fsTimeoutMs events).any (fun x => containsSub x menuMarker)
             then [("6\n").data] else []) := by
  induction events with
  | nil => intro st _ _; simp [fsRunAux, processedOuts]
  | cons e rest ih =>
    intro st hs hf
    cases e with
    | out t text =>
      by_cases h : fsTimeoutMs ≤ t
      · simp [fsRunAux, processedOuts, SEvent.time, h]
      · simp only [processedOuts, SEvent.time, if_neg h] at hf ⊢
        simp only [fsRunAux, SEvent.time, if_neg h]
        rcases hm : containsSub text menuMarker
        · have hwr := fsHandleOut_writes_of_not fname args st t text (by rw [hm]; simp)
          have hms : (fsHandleOut fname args st t text).menuShown = false := by
            rw [fsHandleOut_menuShown, hs, hm]; rfl
          have hout : (fsHandleOut fname args st t text).output = st.output ++ text :=
            fsHandleOut_output fname args st t text
          have hf2 : ∀ s ∈ accOutputs (fsHandleOut fname args st t text).output
              (processedOuts fsTimeoutMs rest), findFunctionNumber s fname = none := by
            rw [hout]
            intro s hsm
            exact hf s (by simp [accOutputs, hsm])
          rw [ih _ hms hf2, hwr]
          simp [hm]
        · have hfind : findFunctionNumber (st.output ++ text) fname = none :=
            hf (st.output ++ text) (by simp [accOutputs])
          have hwr := fsHandleOut_writes_fire_none fname args st t text hm hs hfind
          have hms : (fsHandleOut fname args st t text).menuShown = true := by
            rw [fsHandleOut_menuShown, hs, hm]; rfl
          rw [fsRunAux_writes_shown fname args rest _ hms, hwr]
          simp [hm]
    | err t text =>
      by_cases h : fsTimeoutMs ≤ t
      · simp [fsRunAux, processedOuts, SEvent.time, h]
      · simp only [processedOuts, SEvent.time, if_neg h] at hf ⊢
        simp only [fsRunAux, SEvent.time, if_neg h]
        exact ih _ hs hf
    | close t code =>
      by_cases h : fsTimeoutMs ≤ t
      · simp [fsRunAux, processedOuts, SEvent.time, h]
      · simp [fsRunAux, processedOuts, SEvent.time, h]

/-! ## Auto-exit driver lemmas -/

lemma aeHandleOut_fires (st : AEState) (t : Nat) (text : Str) :
    (aeHandleOut st t text).fires
      = st.fires + (if containsSub text menuMarker then 1 else 0) := by
  unfold aeHandleOut
  split <;> rename_i h <;> simp [h]

lemma aeRunAux_fires (events : List SEvent) :
    ∀ st, (aeRunAux st events).fires
      = st.fires +
          (processedOuts aeTimeoutMs events).countP (fun x => containsSub x menuMarker) := by
  induction events with
  | nil => intro st; simp [aeRunAux, processedOuts]
  | cons e rest ih =>
    intro st
    cases e with
    | out t text =>
      by_cases h : aeTimeoutMs ≤ t
      · simp [aeRunAux, processedOuts, SEvent.time, h]
      · simp only [aeRunAux, SEvent.time, if_neg h]
        rw [ih, aeHandleOut_fires]
        simp only [processedOuts, SEvent.time, if_neg h]
        rcases hm : containsSub text menuMarker <;>
          simp [List.countP_cons, hm] <;> omega
    | err t text =>
      by_cases h : aeTimeoutMs ≤ t
      · simp [aeRunAux, processedOuts, SEvent.time, h]
      · simp [aeRunAux, processedOuts, SEvent.time, h, ih]
    | close t code =>
      by_cases h : aeTimeoutMs ≤ t
      · simp [aeRunAux, processedOuts, SEvent.time, h]
      · simp [aeRunAux, processedOuts, SEvent.time, h]

/-! ## Substring lemmas -/

lemma isPrefixOf_append_self (pat l3 : Str) :
    List.isPrefixOf pat (pat ++ l3) = true := by
  induction pat with
  | nil => cases l3 <;> rfl
  | cons c p ih => simp [List.isPrefixOf, ih]

lemma containsSub_append_inner (l1 pat l3 : Str) :
    containsSub (l1 ++ (pat ++ l3)) pat = true := by
  induction l1 with
  | nil =>
    cases pat with
    | nil => cases l3 <;> simp [containsSub, List.isPrefixOf]
    | cons c p =>
      have hp := isPrefixOf_append_self (c :: p) l3
      simp only [List.cons_append] at hp
      simp [containsSub, hp]
  | cons c l1' ih =>
    simp [containsSub, ih]

/-- Shared bound: every function-selection session resolves no later than
the driver's timeout bound. -/
lemma fsRun_resolveTime_le (fname : Str) (args : List Str) (events : List SEvent) :
    (fsRun fname args events).resolveTime ≤ fsTimeoutMs := by
  unfold fsRun
  rw [fsRunAux_resolveTime]
  cases hrc : resolveClose fsTimeoutMs events with
  | none => simp
  | some p => simpa using le_of_lt (resolveClose_lt _ _ p hrc)

/-! ## Claim theorems -/

/-- The JSON numeric field holding zero: present but falsy. -/
def zeroBound : JsonNat := ⟨0, by norm_num⟩

/-- The JSON numeric field holding the spec's example bound 65535. -/
def bound65535 : JsonNat := ⟨65535, by norm_num⟩

/-- C10 counterexample: the structured-descriptor Uint type with bound 0 is
rendered through the falsy-coalescing default, so the label is
`Uint<unknown>` and does not contain the decimal rendering of the bound —
the round trip already fails at B = 0, inside the exactly-parsed range. -/
theorem c10_counterexample :
    mapCIType (some (CIType.mk (("Uint").data) (some zeroBound) none []))
      = ("Uint<unknown>").data
    ∧ containsSub (mapCIType (some (CIType.mk (("Uint").data) (some zeroBound) none [])))
        (natStr 0) = false := by
  have h : mapCIType (some (CIType.mk (("Uint").data) (some zeroBound) none []))
      = ("Uint<unknown>").data := by
    simp only [mapCIType, mapCITypeCore]
    decide
  exact ⟨h, by rw [h]; decide⟩

/-- C10 (corrected): only on the JSON-exact range — integral bounds below
2^53, where parsing and rendering are both exact — does a nonzero bound B
yield a label containing the decimal rendering of B; a zero (or absent)
bound instead renders as `Uint<unknown>`, and bounds at or above 2^53 are
rounded to a double on parse and print rounded or exponential text, outside
the round trip and outside this embedding's domain. -/
theorem c10_uint_roundtrip_amended (B : JsonNat) (hB : B.val ≠ 0) :
    containsSub (mapCIType (some (CIType.mk (("Uint").data) (some B) none [])))
      (natStr B.val) = true := by
  have h : mapCIType (some (CIType.mk (("Uint").data) (some B) none []))
      = ("Uint<").data ++ (natStr B.val ++ [('>' : Char)]) := by
    simp [mapCIType, mapCITypeCore, orUnknownNat, hB, List.append_assoc]
  rw [h]
  exact containsSub_append_inner _ _ _

/-- Witness for C10's amended theorem at the bound 65535 named by the
spec. -/
theorem c10_uint_roundtrip_amended_witness :
    containsSub (mapCIType (some (CIType.mk (("Uint").data) (some bound65535) none [])))
      (natStr bound65535.val) = true :=
  c10_uint_roundtrip_amended bound65535 (by decide)

/-- C7: the readOnly classification of `parseFromContractInfo` equals the
spec's precedence (an explicit `pure: true` flag wins; otherwise a non-empty
declared result implies read-only; otherwise not read-only), and the
textual-parsing scenario holds: `vote_yes` returning the empty tuple is not
read-only while `get_results` returning a pair is. -/
theorem c7_readonly_classification :
    (∀ c : CICircuit,
      ciReadOnly c = (if c.pure = some true then true else ciHasNonEmptyReturn c))
    ∧ ((votingFns.find? (fun f => f.name == ("vote_yes").data)).map
        ContractFunction.readOnly = some false)
    ∧ ((votingFns.find? (fun f => f.name == ("get_results").data)).map
        ContractFunction.readOnly = some true) := by
  refine ⟨?_, by decide, by decide⟩
  intro c
  rcases hp : c.pure with _ | b
  · simp [ciReadOnly, hp]
  · rcases b <;> simp [ciReadOnly, hp]

/-- C8 counterexample: when the structured descriptor exists but fails to
parse and the `.compact` source file is missing, `analyzeContract` throws
the contract-file-not-found error — the analysis is not total. -/
theorem c8_counterexample :
    errTextOf (analyzeContract c8BadFS)
      = some (("Contract file not found").data) := by decide

/-- C8 (corrected): the analysis never throws provided the structured
descriptor parses or the `.compact` source exists; a descriptor parse
failure falls back to textual parsing of the source; and a textual source
in which no declaration matches yields the empty operation list rather than
an error.  Only when the descriptor is unusable and the source file is
missing does the analyzer throw. -/
theorem c8_analyzer_total_amended :
    (∀ fsys : AnalyzerFS,
      fsys.contractExists = true
        ∨ (fsys.contractInfoExists = true ∧ fsys.contractInfoParsed.isSome = true) →
      errTextOf (analyzeContract fsys) = none)
    ∧ (∀ fsys : AnalyzerFS,
      fsys.contractInfoExists = true → fsys.contractInfoParsed = none →
      fsys.contractExists = true →
      analyzeContract fsys
        = .ok { contractName := ("Bboard Contract").data
                functions := parseFunctions fsys.contractContent
                ledgerState := parseLedgerState fsys.contractContent })
    ∧ parseFunctions
        (("pragma language_version 0.17;\nimport CompactStandardLibrary;\n").data)
      = [] := by
  refine ⟨?_, ?_, by decide⟩
  · intro fsys h
    rcases h with h | ⟨h1, h2⟩
    · unfold analyzeContract analyzeFallback
      rcases hie : fsys.contractInfoExists
      · simp [hie, h, errTextOf]
      · rcases hp : fsys.contractInfoParsed <;> simp [hie, hp, h, errTextOf]
    · unfold analyzeContract
      rcases hp : fsys.contractInfoParsed
      · rw [hp] at h2; simp at h2
      · simp [h1, hp, errTextOf]
  · intro fsys h1 h2 h3
    unfold analyzeContract analyzeFallback
    simp [h1, h2, h3]

/-- Analyzer state whose descriptor fails to parse while the source file
exists: the fallback path succeeds. -/
def c8GoodFS : AnalyzerFS :=
  { contractInfoExists := true
    contractInfoParsed := none
    contractExists := true
    contractContent := votingSrc }

/-- Witness for C8's amended theorem: a failed descriptor parse with an
existing source file analyzes without throwing, via textual parsing. -/
theorem c8_analyzer_total_amended_witness :
    errTextOf (analyzeContract c8GoodFS) = none
    ∧ analyzeContract c8GoodFS
        = .ok { contractName := ("Bboard Contract").data
                functions := parseFunctions c8GoodFS.contractContent
                ledgerState := parseLedgerState c8GoodFS.contractContent } :=
  ⟨c8_analyzer_total_amended.1 c8GoodFS (Or.inl rfl),
   c8_analyzer_total_amended.2.1 c8GoodFS rfl rfl rfl⟩

/-- C1 counterexample: in the auto-exit driver (`runCLIWithAutoExit`) there
is no menu-seen latch, so a session whose stream carries the menu-prompt
marker in two chunks fires the act-on-menu response twice (two exit writes),
not exactly once. -/
theorem c1_counterexample :
    (aeRun c1Events).fires = 2
    ∧ (aeRun c1Events).writes.map Prod.snd = [("6\n").data, ("6\n").data]
    ∧ ¬(aeRun c1Events).fires = 1 := by decide

/-- C1 (corrected): only the function-selection driver latches — its
act-on-menu response fires exactly once per session when any processed
stdout chunk carries the marker and never again on recurrences; the
auto-exit driver has no latch and fires once per marker-carrying stdout
chunk. -/
theorem c1_menu_latch_amended :
    (∀ (fname : Str) (args : List Str) (events : List SEvent),
      (fsRun fname args events).fires
        = (if (processedOuts fsTimeoutMs events).any (fun x => containsSub x menuMarker)
           then 1 else 0))
    ∧ (∀ events : List SEvent,
      (aeRun events).fires
        = (processedOuts aeTimeoutMs events).countP (fun x => containsSub x menuMarker)) := by
  constructor
  · intro fname args events
    unfold fsRun
    rw [fsRunAux_fires]
    simp [latchCount_false]
  · intro events
    unfold aeRun
    rw [aeRunAux_fires]
    simp

/-- C2 counterexample: a session whose marker never appears but whose child
closes normally before the bound resolves with the child's exit code and an
empty error list — the outcome is not marked as a timeout failure. -/
theorem c2_counterexample :
    (∀ x ∈ processedOuts fsTimeoutMs c2Events, containsSub x menuMarker = false)
    ∧ (fsRun (("increment").data) [] c2Events).exitCode = 0
    ∧ (fsRun (("increment").data) [] c2Events).errors = []
    ∧ ¬((fsRun (("increment").data) [] c2Events).exitCode = -1
        ∧ timeoutMsg ∈ (fsRun (("increment").data) [] c2Events).errors) := by decide

/-- C2 (corrected): when the menu-prompt marker never appears on the
processed stdout stream, `execute` performs no stdin writes and resolves no
later than the configured bound; if no close event occurs before the bound
the timeout fires — exit code `-1`, the timeout error appended, all captured
output preserved — while an earlier close resolves with the child's own exit
code instead of a timeout failure. -/
theorem c2_timeout_amended (fname : Str) (args : List Str) (events : List SEvent)
    (h : ∀ x ∈ processedOuts fsTimeoutMs events, containsSub x menuMarker = false) :
    (fsRun fname args events).writes = []
    ∧ (fsRun fname args events).resolveTime ≤ fsTimeoutMs
    ∧ (resolveClose fsTimeoutMs events = none →
        (fsRun fname args events).exitCode = -1
        ∧ timeoutMsg ∈ (fsRun fname args events).errors
        ∧ (fsRun fname args events).output = catAll (processedOuts fsTimeoutMs events))
    ∧ (∀ p, resolveClose fsTimeoutMs events = some p →
        (fsRun fname args events).exitCode = p.2) := by
  refine ⟨?_, fsRun_resolveTime_le fname args events, ?_, ?_⟩
  · unfold fsRun
    exact fsRunAux_writes_nomarker fname args events _ h
  · intro hn
    refine ⟨?_, ?_, ?_⟩
    · unfold fsRun; rw [fsRunAux_exitCode]; simp [hn]
    · unfold fsRun; rw [fsRunAux_errors]; simp [hn]
    · unfold fsRun; rw [fsRunAux_output]; simp
  · intro p hp
    unfold fsRun
    rw [fsRunAux_exitCode]
    simp [hp]

/-- Markerless trace used to witness C2's amended theorem. -/
def c2WitnessEvents : List SEvent := [.out 0 (("hi").data), .close 10 2]

/-- Witness for C2's amended theorem on a concrete markerless trace. -/
theorem c2_timeout_amended_witness :
    (fsRun (("increment").data) [] c2WitnessEvents).writes = []
    ∧ (fsRun (("increment").data) [] c2WitnessEvents).resolveTime ≤ fsTimeoutMs :=
  ⟨(c2_timeout_amended (("increment").data) [] c2WitnessEvents (by decide)).1,
   (c2_timeout_amended (("increment").data) [] c2WitnessEvents (by decide)).2.1⟩

/-- C3 counterexample: on the five-item menu the terminal exit item has
index `5`, yet the not-found branch writes the fixed line `6` — not that
menu's exit item — and the resolved outcome carries no
operation-not-found warning at all: its error list is empty and it even
reports success on a zero exit code. -/
theorem c3_counterexample :
    findFunctionNumber counterMenuText (("nonexistent").data) = none
    ∧ (counterMenu.getLast?).map MenuItem.key = some (("5").data)
    ∧ (fsRun (("nonexistent").data) [] c3Events).writes = [(0, ("6\n").data)]
    ∧ ¬(fsRun (("nonexistent").data) [] c3Events).writes = [(0, ("5\n").data)]
    ∧ (executeFunction (("nonexistent").data) [] c3Events).errors = []
    ∧ (executeFunction (("nonexistent").data) [] c3Events).success = true := by decide

/-- C3 (corrected): for any operation name that resolves to no menu index
on any accumulated prefix of the captured stream, the driver stays live and
writes exactly the fixed selection `6` once the menu-prompt marker is seen
(nothing otherwise), and the session still resolves no later than the
timeout bound; the unmatched name is only logged, not reported in the
outcome. -/
theorem c3_not_found_amended (fname : Str) (args : List Str) (events : List SEvent)
    (h : ∀ s ∈ accOutputs [] (processedOuts fsTimeoutMs events),
      findFunctionNumber s fname = none) :
    (fsRun fname args events).writes.map Prod.snd
      = (if (processedOuts fsTimeoutMs events).any (fun x => containsSub x menuMarker)
         then [("6\n").data] else [])
    ∧ (fsRun fname args events).resolveTime ≤ fsTimeoutMs := by
  refine ⟨?_, fsRun_resolveTime_le fname args events⟩
  have hw := fsRunAux_writes_notfound fname args events
    { output := [], errors := [], menuShown := false, writes := [], fires := 0 } rfl h
  simpa [fsRun] using hw

/-- Menu-prompt-only trace used to witness C3's amended theorem. -/
def c3WitnessEvents : List SEvent :=
  [.out 0 (("Which would you like to do? ").data), .close 10 0]

/-- Witness for C3's amended theorem: an unmatched name on a marker-bearing
trace produces exactly the fixed exit write. -/
theorem c3_not_found_amended_witness :
    (fsRun (("nonexistent").data) [] c3WitnessEvents).writes.map Prod.snd
      = (if (processedOuts fsTimeoutMs c3WitnessEvents).any
            (fun x => containsSub x menuMarker)
         then [("6\n").data] else []) :=
  (c3_not_found_amended (("nonexistent").data) [] c3WitnessEvents (by decide)).1

/-- C4 counterexample: the function-selection driver does not react to the
fatal-exception marker: after the exception chunk arrives at 500 ms, the
argument write at 1000 ms and the exit write at 3000 ms are still
attempted. -/
theorem c4_counterexample :
    containsSub exceptionChunk exceptionMarker = true
    ∧ c4Events = [.out 0 asciiCounterMenuText, .out 500 exceptionChunk, .close 4000 0]
    ∧ (fsRun (("increment").data) [("7").data] c4Events).writes
        = [(0, ("2\n").data), (1000, ("7\n").data), (3000, ("6\n").data)]
    ∧ 500 < 1000 := by decide

/-- C4 (corrected): exception handling lives in `compile`, not in the
session drivers: when the compile command fails and its stdout carries the
`Exception:` marker, the outcome is marked failed, the full stdout —
containing the exception text — is surfaced in the error list, and the
captured output is preserved verbatim. -/
theorem c4_exception_amended (contract : Option Str) (r : ExecOutcome)
    (hf : r.failed = true) (hx : containsSub r.stdout exceptionMarker = true) :
    (compile contract r).success = false
    ∧ r.stdout ∈ (compile contract r).errors
    ∧ (compile contract r).output = r.stdout := by
  have h1 : (!r.failed) = false := by rw [hf]; rfl
  unfold compile
  rw [h1, hx]
  refine ⟨by simp, ?_, by simp⟩
  rcases hse : r.stderr.isEmpty <;> simp [hse]

/-- Failing compile run whose stdout carries the exception marker. -/
def c4WitnessExec : ExecOutcome :=
  { stdout := exceptionChunk
    stderr := []
    failed := true
    message := ("Command failed: npm run compile").data }

/-- Witness for C4's amended theorem on a concrete failing compile run. -/
theorem c4_exception_amended_witness :
    (compile none c4WitnessExec).success = false
    ∧ c4WitnessExec.stdout ∈ (compile none c4WitnessExec).errors :=
  ⟨(c4_exception_amended none c4WitnessExec rfl (by decide)).1,
   (c4_exception_amended none c4WitnessExec rfl (by decide)).2.1⟩

/-- C9 counterexample: a menu-prompt marker arriving on the standard-error
stream is neither appended to the captured-output buffer nor recognized by
the marker scanner — the chunk lands only in the separate error list and
the act-on-menu response never fires. -/
theorem c9_counterexample :
    containsSub (("Which would you like to do? ").data) menuMarker = true
    ∧ (fsRun (("increment").data) [] c9Events).output = []
    ∧ (fsRun (("increment").data) [] c9Events).fires = 0
    ∧ (fsRun (("increment").data) [] c9Events).writes = []
    ∧ (fsRun (("increment").data) [] c9Events).errors
        = [("Which would you like to do? ").data] := by decide

/-- C9 (corrected): the captured-output buffer receives exactly the
processed stdout chunks, in order; stderr chunks go only to the separate
error list (plus the timeout error when no close occurs); and the marker
scanner sees only stdout — the act-on-menu response fires precisely when a
processed stdout chunk carries the marker. -/
theorem c9_stream_capture_amended (fname : Str) (args : List Str)
    (events : List SEvent) :
    (fsRun fname args events).output = catAll (processedOuts fsTimeoutMs events)
    ∧ (fsRun fname args events).errors
        = processedErrs fsTimeoutMs events ++
            (match resolveClose fsTimeoutMs events with
             | some _ => []
             | none => [timeoutMsg])
    ∧ (fsRun fname args events).fires
        = (if (processedOuts fsTimeoutMs events).any (fun x => containsSub x menuMarker)
           then 1 else 0) := by
  refine ⟨?_, ?_, ?_⟩
  · unfold fsRun; rw [fsRunAux_output]; simp
  · unfold fsRun; rw [fsRunAux_errors]; simp
  · unfold fsRun; rw [fsRunAux_fires]; simp [latchCount_false]

/-- C5: for every operation list, `generateMenuItems` yields exactly N+3
items; the keys are the decimal numbers 1..N+3 in order (so the N operations
come first, in analyzer order, with keys 1..N); the first N labels are the
formatted operation labels in analyzer order; and the final three items are
the ledger-state display, the private-state display and exit, in that fixed
order. -/
theorem c5_menu_shape (fns : List ContractFunction) :
    (generateMenuItems fns).length = fns.length + 3
    ∧ (generateMenuItems fns).map MenuItem.key
        = (List.range (fns.length + 3)).map (fun i => natStr (i + 1))
    ∧ ((generateMenuItems fns).take fns.length).map MenuItem.label
        = fns.map formatFunctionLabel
    ∧ ((generateMenuItems fns).drop fns.length).map MenuItem.label
        = [("Display ledger state").data, ("Display private state").data, ("Exit").data]
    ∧ ((generateMenuItems fns).drop fns.length).map MenuItem.readOnly
        = [some true, some true, none] := by
  have hlen : (fns.enum.map (fun p =>
      ({ key := natStr (p.1 + 1), label := formatFunctionLabel p.2
         readOnly := some p.2.readOnly } : MenuItem))).length = fns.length := by
    simp [List.enum_length]
  refine ⟨?_, ?_, ?_, ?_, ?_⟩
  · simp [generateMenuItems, List.enum_length]
  · have h3 : List.range (fns.length + 3)
        = List.range fns.length ++ [fns.length, fns.length + 1, fns.length + 2] := by
      rw [show fns.length + 3 = (fns.length + 2) + 1 from rfl, List.range_succ,
        show fns.length + 2 = (fns.length + 1) + 1 from rfl, List.range_succ,
        List.range_succ]
      simp
    rw [h3]
    simp only [generateMenuItems, List.map_append, List.map_map]
    congr 1
    · rw [show (MenuItem.key ∘ fun p : Nat × ContractFunction =>
          ({ key := natStr (p.1 + 1), label := formatFunctionLabel p.2
             readOnly := some p.2.readOnly } : MenuItem))
          = (fun i => natStr (i + 1)) ∘ Prod.fst from funext fun p => rfl]
      rw [← List.map_map, List.enum_map_fst]
  · simp only [generateMenuItems]
    rw [← hlen, List.take_left, List.map_map]
    rw [show (MenuItem.label ∘ fun p : Nat × ContractFunction =>
        ({ key := natStr (p.1 + 1), label := formatFunctionLabel p.2
           readOnly := some p.2.readOnly } : MenuItem))
        = formatFunctionLabel ∘ Prod.snd from funext fun p => rfl]
    rw [← List.map_map, List.enum_map_snd]
  · simp only [generateMenuItems]
    rw [← hlen, List.drop_left]
    rfl
  · simp only [generateMenuItems]
    rw [← hlen, List.drop_left]
    rfl

/-- C6 counterexample: the two-operation descriptor yields the five-item
menu whose terminal exit item has index `5`, but executing `increment` with
argument `7` on the menu the generator actually echoes writes only the
single fixed line `6`: the echoed icon column holds the source file's
mojibake indicator sequences, which the driver's no-`u`-flag icon pattern
`[⚡📖]` never matches, so `increment` resolves to no menu index at all and
the not-found branch runs — the claimed three-line sequence ending in that
menu's exit index never occurs. -/
theorem c6_counterexample :
    counterFns.length = 2
    ∧ counterMenu.length = 5
    ∧ (counterMenu.getLast?).map MenuItem.key = some (("5").data)
    ∧ findFunctionNumber counterMenuText (("increment").data) = none
    ∧ (fsRun (("increment").data) [("7").data] c6Events).writes.map Prod.snd
        = [("6\n").data]
    ∧ ¬(fsRun (("increment").data) [("7").data] c6Events).writes.map Prod.snd
        = [("2\n").data, ("7\n").data, ("5\n").data] := by decide

/-- C6 (corrected): on the menu the generator actually echoes for the
two-operation descriptor, executing `increment` with argument `7` writes
exactly one stdin line — the fixed exit selection `6` — because the
mojibake icons defeat index resolution; only on a hand-written menu line
bearing the real single-scalar lightning icon does the driver write the
three-line sequence, and even then it is resolved index `2`, argument `7`,
then the fixed `6`, not the menu's terminal exit index `5`. -/
theorem c6_write_sequence_amended :
    (fsRun (("increment").data) [("7").data] c6Events).writes = [(0, ("6\n").data)]
    ∧ counterMenu.length = 5
    ∧ (counterMenu.getLast?).map MenuItem.key = some (("5").data)
    ∧ findFunctionNumber asciiCounterMenuText (("increment").data) = some (("2").data)
    ∧ (fsRun (("increment").data) [("7").data] c6MatchableEvents).writes
        = [(0, ("2\n").data), (1000, ("7\n").data), (3000, ("6\n").data)] := by decide

end MidnightPlayground
